import Mathlib

/-!
# Verification of the review-aggregation / vendor-acquisition pipeline

Shallow embedding of the reconciliation pipeline of the
ketamine-software-directory repository:

* `scripts/aggregate-reviews.mjs` (Source Extractor + Aggregator),
* `scripts/agents/acquire/classify.mjs` (Classifier),
* `scripts/agents/acquire/verify.mjs` (Evidence Collector),
* `scripts/agents/acquire/index.mjs` (Deduplicator / acquisition flow).

Modelling conventions:

* JS numbers are modelled by `ℚ` (every modelled value is a finite number;
  `NaN`/`Infinity` and non-number field values are outside the model, a field
  that may be `null`/`undefined` is an `Option`).
* JS objects are structures; absent object keys are `none`.
* JS `a ?? b` on modelled fields is `Option` fallback; JS `a || b` on strings
  additionally treats `""` as falsy, which is modelled explicitly.
* Dates (the `YYYY-MM-DD` stamps produced by
  `new Date().toISOString().split('T')[0]`) are opaque strings passed in as
  the run date `today`.
-/

/-! ## Shared JS helpers -/

/-- JS string truthiness: `undefined`, `null` and `""` are falsy.  Used to
model `a || b` chains on string-valued expressions. -/
def jsTruthyStr (o : Option String) : Option String :=
  match o with
  | some s => if s = "" then none else some s
  | none => none

/-- ASCII lowercasing, written over the character list so that concrete runs
reduce in the kernel (JS `toLowerCase`; all modelled strings are ASCII). -/
def jsToLower (s : String) : String := String.mk (s.data.map Char.toLower)

/-- JS `a ?? b` on number-valued optional fields. -/
def jsNullish (a b : Option ℚ) : Option ℚ :=
  match a with
  | some x => some x
  | none => b

/- `Rat.add`/`mul`/`inv`/`sub` are `@[irreducible]` in Batteries, which only
hides them from unification; re-mark them so that concrete runs of the
pipeline can be evaluated by `decide`. -/
attribute [local semireducible] Rat.add Rat.mul Rat.inv Rat.sub

/-- JS `Math.round`: round half toward positive infinity, `⌊q + 1/2⌋`
(written with the executable `Rat.floor`; see `jsRound_eq_floor`). -/
def jsRound (q : ℚ) : ℤ := (q + 1/2).floor

theorem jsRound_eq_floor (q : ℚ) : jsRound q = ⌊q + 1/2⌋ := by
  rw [jsRound, Rat.floor_def', ← Rat.floor_def]

/-- Rounding to one decimal place, `Math.round(q * 10) / 10`, as done both in
`makeSource` and in `calculateAggregate`. -/
def round1 (q : ℚ) : ℚ := (jsRound (q * 10) : ℚ) / 10

/-! ## Data model of the Aggregator (`scripts/aggregate-reviews.mjs`) -/

/-- The enumerated set of external review platforms.  The aggregator only
ever constructs sources with the literal names `'g2'` and `'capterra'`. -/
inductive Source where
  | capterra
  | g2
deriving DecidableEq

/-- The JSON name of a source; `'capterra' < 'g2'` in the sort order used by
`sources.sort((a, b) => a.source.localeCompare(b.source))`. -/
def Source.name : Source → String
  | .capterra => "capterra"
  | .g2 => "g2"

/-- One `ReviewSource` as emitted into `aggregated-reviews.json`. -/
structure ReviewSource where
  source : Source
  score : ℚ
  count : ℚ
  url : String
  lastUpdated : String
deriving DecidableEq

/-- One per-vendor record of `aggregated-reviews.json` (an `AggregatedReview`
without its key, which is the vendor slug). -/
structure AggRecord where
  aggregateScore : Option ℚ
  totalCount : ℚ
  sources : List ReviewSource
  lastAggregated : String
deriving DecidableEq

/-- A per-platform entry of `vendor-mappings.json`: `{slug, url}` where either
key may be absent/null. -/
structure PlatformMapping where
  slug : Option String
  url : Option String
deriving DecidableEq

/-- The per-vendor value of `vendor-mappings.json`: optional `g2` and
`capterra` platform mappings. -/
structure VendorMapping where
  g2 : Option PlatformMapping
  capterra : Option PlatformMapping
deriving DecidableEq

/-- Lookup `mapping?.[source]` for the two platform keys used by the script. -/
def VendorMapping.forSource (m : VendorMapping) : Source → Option PlatformMapping
  | .g2 => m.g2
  | .capterra => m.capterra

/-- Model of `vendor-mappings.json`: `mappings.vendors` is a JSON object, modelled as
an association list in key-insertion order (`Object.entries` order).  A JS
object cannot have duplicate keys. -/
structure Mappings where
  vendors : List (String × VendorMapping)
deriving DecidableEq

/-- One raw Apify item of `g2-raw.json` / `capterra-raw.json`.  Both dumps
share the same loosely-structured shape; each field may be absent. -/
structure RawItem where
  productUrl : Option String
  url : Option String
  rating : Option ℚ
  overallRating : Option ℚ
  reviewCount : Option ℚ
  totalReviews : Option ℚ
deriving DecidableEq

/-! ## Source Extractor (`extractG2Slug`, `extractCapterraSlug`,
`mapToVendorSlug`) -/

/-- Scan for the leftmost match of `/g2\.com\/products\/([^/]+)/`: at each
position, try the literal prefix followed by a nonempty run of non-`/`
characters; on failure resume at the next position. -/
def g2SlugAux : List Char → Option String
  | [] => none
  | c :: cs =>
    if ("g2.com/products/".toList).isPrefixOf (c :: cs) then
      let cap := ((c :: cs).drop "g2.com/products/".toList.length).takeWhile (· ≠ '/')
      if cap = [] then g2SlugAux cs else some (String.mk cap)
    else g2SlugAux cs

/-- Embeds `extractG2Slug(url)`: `url.match(/g2\.com\/products\/([^/]+)/)`, returning
the captured group or `null`. -/
def extractG2Slug (url : String) : Option String :=
  g2SlugAux url.toList

/-- Scan for the leftmost match of `/capterra\.com\/p\/\d+\/([^/]+)/`:
literal prefix, a nonempty digit run, a `/`, then a nonempty run of non-`/`
characters. -/
def capterraSlugAux : List Char → Option String
  | [] => none
  | c :: cs =>
    if ("capterra.com/p/".toList).isPrefixOf (c :: cs) then
      let rest := (c :: cs).drop "capterra.com/p/".toList.length
      let digits := rest.takeWhile Char.isDigit
      if digits = [] then capterraSlugAux cs
      else
        match rest.drop digits.length with
        | '/' :: r =>
          let cap := r.takeWhile (· ≠ '/')
          if cap = [] then capterraSlugAux cs else some (String.mk cap)
        | _ => capterraSlugAux cs
    else capterraSlugAux cs

/-- Embeds `extractCapterraSlug(url)`: the captured group lowercased, or `null`. -/
def extractCapterraSlug (url : String) : Option String :=
  (capterraSlugAux url.toList).map jsToLower

/-- Embeds `mapToVendorSlug(platformSlug, source, mappings)`: first vendor whose
mapping for `source` has a truthy `slug` equal (case-insensitively) to
`platformSlug`. -/
def mapToVendorSlug (platformSlug : String) (source : Source) (mappings : Mappings) :
    Option String :=
  mappings.vendors.findSome? fun e =>
    match e.2.forSource source with
    | none => none
    | some platformMapping =>
      match platformMapping.slug with
      | none => none
      | some s =>
        -- `if (!platformMapping?.slug) continue;` skips the empty string too
        if s = "" then none
        else if jsToLower s = jsToLower platformSlug then some e.1 else none

/-- Embeds `getMappedUrl(vendorSlug, source)` =
`mappings.vendors?.[vendorSlug]?.[source]?.url ?? null`. -/
def getMappedUrl (mappings : Mappings) (vendorSlug : String) (source : Source) :
    Option String :=
  match mappings.vendors.lookup vendorSlug with
  | none => none
  | some vm =>
    match vm.forSource source with
    | none => none
    | some pm => pm.url

/-- A raw item resolved to an internal vendor: the data pushed by
`result[vendorSlug].sources.push(makeSource(vendorSlug, source, score, count,
reviewUrl))`. -/
structure Resolved where
  vendor : String
  src : Source
  score : ℚ
  count : ℚ
  url : String
deriving DecidableEq

/-- The G2 loop body (aggregate-reviews.mjs, "Process G2 data"): extract the
platform slug from `item?.productUrl || item?.url || ''`, resolve the vendor,
take `score = item?.rating ?? item?.overallRating` and
`count = item?.reviewCount ?? item?.totalReviews ?? 0`, and keep the item only
when the score is a finite number and `count > 0`.  (In this model every
modelled numeric field is a finite number, so
`typeof score === 'number' && Number.isFinite(score)` is `score ≠ none`; note
the source performs no `score ≥ 0` check.)  The review URL is
`getMappedUrl(vendorSlug, 'g2') || fallback`. -/
def resolveG2 (mappings : Mappings) (item : RawItem) : Option Resolved :=
  let url := ((jsTruthyStr item.productUrl).or (jsTruthyStr item.url)).getD ""
  match extractG2Slug url with
  | none => none
  | some g2Slug =>
    match mapToVendorSlug g2Slug .g2 mappings with
    | none => none
    | some vendorSlug =>
      match jsNullish item.rating item.overallRating with
      | none => none
      | some score =>
        let count := (jsNullish item.reviewCount item.totalReviews).getD 0
        if 0 < count then
          let reviewUrl :=
            (jsTruthyStr (getMappedUrl mappings vendorSlug .g2)).getD
              ("https://www.g2.com/products/" ++ g2Slug ++ "/reviews")
          some ⟨vendorSlug, .g2, score, count, reviewUrl⟩
        else none

/-- The Capterra loop body: same shape with swapped field precedences
(`item?.url || item?.productUrl || ''`, `item?.overallRating ?? item?.rating`)
and review URL `getMappedUrl(vendorSlug, 'capterra') || url`. -/
def resolveCapterra (mappings : Mappings) (item : RawItem) : Option Resolved :=
  let url := ((jsTruthyStr item.url).or (jsTruthyStr item.productUrl)).getD ""
  match extractCapterraSlug url with
  | none => none
  | some capterraSlug =>
    match mapToVendorSlug capterraSlug .capterra mappings with
    | none => none
    | some vendorSlug =>
      match jsNullish item.overallRating item.rating with
      | none => none
      | some score =>
        let count := (jsNullish item.reviewCount item.totalReviews).getD 0
        if 0 < count then
          let reviewUrl :=
            (jsTruthyStr (getMappedUrl mappings vendorSlug .capterra)).getD url
          some ⟨vendorSlug, .capterra, score, count, reviewUrl⟩
        else none

/-! ## Aggregator core -/

/-- Embeds `calculateAggregate(sources)`: `null` on an empty list or zero total
count, else the count-weighted mean rounded via `Math.round(x*10)/10`.
(`(s.count || 0)` and `(s.score || 0)` are the identity on modelled numeric
fields: `0 || 0` evaluates to `0`.) -/
def calculateAggregate (sources : List ReviewSource) : Option ℚ :=
  if sources = [] then none
  else
    let totalCount := (sources.map (·.count)).sum
    if totalCount = 0 then none
    else
      let weightedSum := (sources.map (fun s => s.score * s.count)).sum
      some (round1 (weightedSum / totalCount))

/-- Embeds `previous?.[vendorSlug]?.sources?.find((s) => s.source === source)`. -/
def findSource (sources : List ReviewSource) (source : Source) : Option ReviewSource :=
  sources.find? (fun s => s.source == source)

/-- Embeds `makeSource(vendorSlug, source, score, count, url)`, specialised to the
previous record's source list: the score is rounded to one decimal, and
`lastUpdated` is carried forward exactly when the previous `(score, count,
url)` triple matches. -/
def makeSource (prevSources : List ReviewSource) (today : String) (r : Resolved) :
    ReviewSource :=
  let roundedScore := round1 r.score
  match findSource prevSources r.src with
  | some prev =>
    if prev.score = roundedScore ∧ prev.count = r.count ∧ prev.url = r.url then
      ⟨r.src, roundedScore, r.count, r.url, prev.lastUpdated⟩
    else ⟨r.src, roundedScore, r.count, r.url, today⟩
  | none => ⟨r.src, roundedScore, r.count, r.url, today⟩

/-- Embeds `data.sources.sort((a, b) => a.source.localeCompare(b.source))`: a stable
sort on the two source names; since `'capterra' < 'g2'`, this is exactly "all
capterra entries in original order, then all g2 entries in original order". -/
def sortSources (l : List ReviewSource) : List ReviewSource :=
  l.filter (fun s => s.source == Source.capterra) ++
    l.filter (fun s => s.source == Source.g2)

/-- Embeds `new Map(list.map((s) => [s.source, s])).get(source)`: on duplicate keys
the last insertion wins. -/
def lastBySource (l : List ReviewSource) (s : Source) : Option ReviewSource :=
  (l.filter (fun x => x.source == s)).getLast?

/-- One step of the change-detection loop: a source was added, removed, or
changed its `(score, count)` pair. -/
def sourceChanged (p c : Option ReviewSource) : Bool :=
  match p, c with
  | none, none => false
  | none, some _ => true
  | some _, none => true
  | some a, some b => a.score != b.score || a.count != b.count

/-- The change-detection loop over
`allSources = new Set([...prevBySource.keys(), ...currBySource.keys()])`;
iterating over both enum values instead of the set union is equivalent, since
a source absent from both maps contributes `sourceChanged none none = false`. -/
def detectChanged (prevSources currSources : List ReviewSource) : Bool :=
  [Source.capterra, Source.g2].any fun s =>
    sourceChanged (lastBySource prevSources s) (lastBySource currSources s)

/-- Embeds `prev?.lastAggregated || today`: the value given to `lastAggregated` both
at initialisation and in the unchanged branch (`||` treats `""` as falsy). -/
def jsLastAgg (prevRec : Option AggRecord) (today : String) : String :=
  match prevRec with
  | some p => if p.lastAggregated = "" then today else p.lastAggregated
  | none => today

/-- The per-vendor tail of `aggregate()`: build the current sources from the
items resolved to this vendor (in processing order), sort them, compute
`totalCount` and `aggregateScore`, and run change detection against the
previous record to decide `lastAggregated`. -/
def perVendor (prevRec : Option AggRecord) (today : String) (raw : List Resolved) :
    AggRecord :=
  let prevSources := (prevRec.map (·.sources)).getD []
  let cur := sortSources (raw.map (makeSource prevSources today))
  { aggregateScore := calculateAggregate cur
    totalCount := (cur.map (·.count)).sum
    sources := cur
    lastAggregated :=
      if detectChanged prevSources cur then today else jsLastAgg prevRec today }

/-- The items of the two raw dumps that resolve to vendor `v`, in processing
order (the G2 loop runs before the Capterra loop; within each loop items are
processed in dump order).  `result[v].sources` receives exactly these pushes,
in exactly this order. -/
def resolvedFor (mappings : Mappings) (g2Raw capterraRaw : List RawItem)
    (v : String) : List Resolved :=
  (g2Raw.filterMap (resolveG2 mappings) ++
    capterraRaw.filterMap (resolveCapterra mappings)).filter (fun r => r.vendor == v)

/-- Embeds `aggregate()` as a pure function of its file inputs: the mappings, the
previous run's output (`previous = loadJson(OUTPUT_PATH) || {}`, an object
keyed by vendor slug), the run date `today`, and the two raw dumps.  The
result object has one entry per vendor of `mappings.vendors`, in that key
order; each vendor's entry is the per-vendor pass over the items resolved to
it.  (The imperative script initialises `result` over all mapping keys, pushes
each resolved item onto its vendor's source list in loop order — which is
`resolvedFor` — and then runs the per-vendor aggregation pass.) -/
def aggregate (mappings : Mappings) (previous : List (String × AggRecord))
    (today : String) (g2Raw capterraRaw : List RawItem) :
    List (String × AggRecord) :=
  mappings.vendors.map fun e =>
    (e.1, perVendor (previous.lookup e.1) today
      (resolvedFor mappings g2Raw capterraRaw e.1))

/-! ## Evidence Collector (`scripts/agents/acquire/verify.mjs`)

Network effects are modelled by passing the outcome of the probe and of the
per-path page fetches in as a `VerifyWorld` value.  `pricing_found`
(best-effort price-pattern extraction) is orthogonal to every verified
property and is not modelled. -/

/-- Non-overlapping scan for a literal pattern: `skip` counts characters still
to be consumed by the previous match before the scan may match again. -/
def countOccsAux (pat : List Char) : List Char → Nat → Nat
  | [], _ => 0
  | _ :: cs, skip + 1 => countOccsAux pat cs skip
  | c :: cs, 0 =>
    if pat.isPrefixOf (c :: cs) ∧ pat ≠ [] then
      countOccsAux pat cs (pat.length - 1) + 1
    else countOccsAux pat cs 0

/-- Non-overlapping occurrence count of a literal pattern, the behaviour of
`content.match(new RegExp(keyword, 'gi')).length` for the keyword literals of
this script (which contain no regex metacharacters); after a match the scan
resumes past the matched text. -/
def countOccs (pat l : List Char) : Nat :=
  countOccsAux pat l 0

/-- One entry of `matches` as produced by `searchKeywords`. -/
structure KMatch where
  keyword : String
  count : Nat
deriving DecidableEq

/-- The `{count, matches}` evidence object produced by `searchKeywords`. -/
structure Evidence where
  count : Nat
  «matches» : List KMatch
deriving DecidableEq

/-- Embeds `searchKeywords(content, keywords)`: per-keyword occurrence counts over
the (already lowercased) corpus, keeping keywords with at least one hit; the
total is the sum of the per-keyword counts.  `if (!content)` short-circuits
on the empty corpus. -/
def searchKeywords (content : String) (keywords : List String) : Evidence :=
  if content = "" then ⟨0, []⟩
  else
    let hits := keywords.filterMap fun keyword =>
      let n := countOccs keyword.toList content.toList
      if 0 < n then some (⟨keyword, n⟩ : KMatch) else none
    ⟨(hits.map (·.count)).sum, hits⟩

def KETAMINE_KEYWORDS : List String :=
  ["ketamine", "spravato", "esketamine", "iv infusion", "im injection",
   "intramuscular", "infusion clinic", "infusion therapy", "treatment series",
   "rems"]

def PSYCHIATRY_KEYWORDS : List String :=
  ["psychiatry", "psychiatric", "behavioral health", "mental health",
   "outcome tracking", "phq-9", "gad-7", "rating scales", "outcome measures"]

def PAGES_TO_CHECK : List String :=
  ["", "/pricing", "/features", "/psychiatry", "/solutions", "/about"]

/-- Result of `checkWebsite(url)`: the lightweight HEAD probe. -/
structure ProbeResult where
  ok : Bool
  status : Int
  error : Option String
deriving DecidableEq

/-- The network environment of one `verifyVendor` call: the probe outcome and,
per entry of `PAGES_TO_CHECK`, the text `fetchPageContent` produces for that
path (`none` for a failed fetch; the markup-stripping and
whitespace-collapsing of `fetchPageContent` happen before this boundary, its
lowercasing is applied below). -/
structure VerifyWorld where
  probe : ProbeResult
  fetch : String → Option String

/-- A vendor-like record as passed around the acquisition flow (a discovered
candidate or an existing content entry); fields that a given record may lack
are `Option`s. -/
structure VendorLike where
  name : String
  slug : Option String
  website : Option String
  description : Option String
  source : Option String
deriving DecidableEq

/-- The report produced by `verifyVendor`.  In the JS object the keys
`pages_checked`/`ketamine_evidence`/... are simply absent in the unreachable
branch respectively `website_error` in the live branch; absent list/field
values are modelled by `[]`/`none`. -/
structure VerificationReport where
  vendor : Option String
  name : String
  website_live : Bool
  website_error : Option String
  pages_checked : List String
  ketamine_evidence : Option Evidence
  psychiatry_evidence : Option Evidence
  verification_date : String
  status : String
deriving DecidableEq

/-- Embeds `verifyVendor(vendor)`: probe the site; on failure short-circuit with
`website_live: false` and `status: 'unverified'`.  Otherwise build the
lowercased corpus from the successfully fetched pages (`if (content)` skips
falsy, i.e. failed or empty, fetches; `pagePath || '/'` records the home
path), run the two keyword scans, and set `status` to `'verified'` when
`ketamineEvidence.count >= 5` or `psychiatryEvidence.count >= 3`, else
`'needs_review'`. -/
def verifyVendor (vendor : VendorLike) (world : VerifyWorld) (today : String) :
    VerificationReport :=
  if ¬ world.probe.ok then
    { vendor := vendor.slug
      name := vendor.name
      website_live := false
      website_error :=
        some ((jsTruthyStr world.probe.error).getD s!"HTTP {world.probe.status}")
      pages_checked := []
      ketamine_evidence := none
      psychiatry_evidence := none
      verification_date := today
      status := "unverified" }
  else
    let contents := PAGES_TO_CHECK.map fun p => (p, jsTruthyStr (world.fetch p))
    let allContent := contents.foldl
      (fun acc x =>
        match x.2 with
        | some content => acc ++ " " ++ jsToLower content
        | none => acc) ""
    let pagesChecked := contents.filterMap fun x =>
      x.2.map fun _ => if x.1 = "" then "/" else x.1
    let ketamineEvidence := searchKeywords allContent KETAMINE_KEYWORDS
    let psychiatryEvidence := searchKeywords allContent PSYCHIATRY_KEYWORDS
    let status :=
      if 5 ≤ ketamineEvidence.count then "verified"
      else if 3 ≤ psychiatryEvidence.count then "verified"
      else "needs_review"
    { vendor := vendor.slug
      name := vendor.name
      website_live := true
      website_error := none
      pages_checked := pagesChecked
      ketamine_evidence := some ketamineEvidence
      psychiatry_evidence := some psychiatryEvidence
      verification_date := today
      status := status }

/-! ## Classifier (`scripts/agents/acquire/classify.mjs`) -/

/-- Substring containment, `String.prototype.includes` for a literal pattern. -/
def listContainsPat (pat : List Char) : List Char → Bool
  | [] => pat.isEmpty
  | c :: cs => pat.isPrefixOf (c :: cs) || listContainsPat pat cs

def strIncludes (s pat : String) : Bool :=
  listContainsPat pat.toList s.toList

/-- The seven boolean capability flags of `inferKetamineFeatures` /
`ketamine_features`. -/
structure KetamineFeatures where
  iv_protocols : Bool
  im_protocols : Bool
  spravato_workflows : Bool
  outcome_tracking : Bool
  patient_rating_scales : Bool
  ketamine_consent_forms : Bool
  treatment_series_tracking : Bool
deriving DecidableEq

/-- The `evidence` payload attached by `classifyVendor` (the `general_ehr`
branch has no `keywords` key). -/
structure EvidenceOut where
  ketamine_mentions : Nat
  psychiatry_mentions : Nat
  keywords : Option (List KMatch)
deriving DecidableEq

/-- The result object of `classifyVendor`.  `inferred_features` is not among
the keys `classifyVendor` constructs — reading it from its result yields
`undefined` — but `classifyAllVendors` attaches it afterwards; the field is
therefore an `Option` that `classifyVendor` leaves `none`. -/
structure Classification where
  classification : String
  reason : String
  confidence : String
  evidence : Option EvidenceOut
  inferred_features : Option KetamineFeatures
deriving DecidableEq

/-- Embeds `classifyVendor(verificationReport)`: decision list of the classifier.
`ketamine_evidence?.count || 0` is modelled by defaulting absent evidence to
count `0` / no matches.  (`hasInfusionKeyword` is computed by the source but
never read, so it is not modelled.) -/
def classifyVendor (verificationReport : VerificationReport) : Classification :=
  if ¬ verificationReport.website_live then
    { classification := "unknown"
      reason := "Website unavailable for verification"
      confidence := "low"
      evidence := none
      inferred_features := none }
  else
    let ketamineCount := (verificationReport.ketamine_evidence.map (·.count)).getD 0
    let psychiatryCount := (verificationReport.psychiatry_evidence.map (·.count)).getD 0
    let ketamineMatches := (verificationReport.ketamine_evidence.map (·.«matches»)).getD []
    let psychiatryMatches := (verificationReport.psychiatry_evidence.map (·.«matches»)).getD []
    let hasKetamineKeyword := ketamineMatches.any fun m =>
      m.keyword == "ketamine" || m.keyword == "spravato" || m.keyword == "esketamine"
    if 5 ≤ ketamineCount ∧ hasKetamineKeyword then
      { classification := "ketamine_specific"
        reason := s!"Found {ketamineCount} ketamine-related mentions with specific keywords"
        confidence := "high"
        evidence := some ⟨ketamineCount, psychiatryCount, some ketamineMatches⟩
        inferred_features := none }
    else if 1 ≤ ketamineCount ∨ 3 ≤ psychiatryCount then
      { classification := "ketamine_compatible"
        reason :=
          if 0 < ketamineCount then
            s!"Found {ketamineCount} ketamine mention(s) - may support ketamine workflows"
          else
            s!"Found {psychiatryCount} psychiatry/behavioral health mentions - compatible with mental health practices"
        confidence := if 0 < ketamineCount then "medium" else "low"
        evidence := some ⟨ketamineCount, psychiatryCount,
          some (ketamineMatches ++ psychiatryMatches)⟩
        inferred_features := none }
    else
      { classification := "general_ehr"
        reason := "No ketamine or psychiatry-specific evidence found"
        confidence := "high"
        evidence := some ⟨ketamineCount, psychiatryCount, none⟩
        inferred_features := none }

/-- Embeds `inferKetamineFeatures(verificationReport)`: each flag tests whether some
matched ketamine keyword contains one of a fixed set of substrings. -/
def inferKetamineFeatures (verificationReport : VerificationReport) : KetamineFeatures :=
  let «matches» := (verificationReport.ketamine_evidence.map (·.«matches»)).getD []
  let hasKeyword : List String → Bool := fun keywords =>
    «matches».any fun m => keywords.any fun k => strIncludes (jsToLower m.keyword) k
  { iv_protocols := hasKeyword ["iv infusion", "infusion protocol", "infusion clinic"]
    im_protocols := hasKeyword ["im injection", "intramuscular"]
    spravato_workflows := hasKeyword ["spravato", "rems", "esketamine"]
    outcome_tracking := hasKeyword ["outcome tracking", "outcome measure", "phq-9", "gad-7"]
    patient_rating_scales := hasKeyword ["rating scale", "phq", "gad", "questionnaire"]
    ketamine_consent_forms := hasKeyword ["consent form", "informed consent"]
    treatment_series_tracking :=
      hasKeyword ["treatment series", "session tracking", "infusion series"] }

/-! ## Deduplicator and entry generation (`scripts/agents/acquire/index.mjs`) -/

/-- Tests that `c` survives `.toLowerCase().replace(/[^a-z0-9]/g, '')`. -/
def isLowerAlnum (c : Char) : Bool :=
  ('a' ≤ c ∧ c ≤ 'z') ∨ ('0' ≤ c ∧ c ≤ '9')

/-- Embeds `normalizeName(name)`: lowercase, strip every non-alphanumeric character
(the trailing `.trim()` is the identity, whitespace is already stripped). -/
def normalizeName (name : String) : String :=
  String.mk ((jsToLower name).toList.filter isLowerAlnum)

/-- The scan for the scheme separator of an absolute URL. -/
def afterSchemeAux : List Char → Option (List Char)
  | [] => none
  | c :: cs =>
    if ("://".toList).isPrefixOf (c :: cs) then some ((c :: cs).drop 3)
    else afterSchemeAux cs

/-- Embeds `extractDomain(url)` = `new URL(url).hostname.replace(/^www\./, '')` with
parse failures caught to `null`.  The WHATWG parser is modelled for the
`scheme://host[:port][/path…]` URLs this pipeline handles: the hostname is the
maximal run after `://` free of `/`, `:`, `?`, `#`, lowercased by the parser;
a URL without a scheme separator or with an empty host fails to parse. -/
def extractDomain (url : String) : Option String :=
  match afterSchemeAux url.toList with
  | none => none
  | some rest =>
    let host := rest.takeWhile fun c => c ≠ '/' ∧ c ≠ ':' ∧ c ≠ '?' ∧ c ≠ '#'
    if host = [] then none
    else
      let h := jsToLower (String.mk host)
      some (if ("www.".toList).isPrefixOf h.toList then String.mk (h.toList.drop 4) else h)

/-- The `{exists: true, reason, existing}` payload of `vendorExists` (the
matched record's `slug` key may be absent when matching against an in-batch
candidate). -/
structure ExistsCheck where
  reason : String
  existing : Option String
deriving DecidableEq

/-- The body of the `vendorExists` loop for one existing record: first
compare normalized names, then — when both sides have a truthy extracted
domain (`if (newDomain && existingDomain && newDomain === existingDomain)`) —
compare domains. -/
def vendorMatch (normalizedNew : String) (newDomain : Option String)
    (existing : VendorLike) : Option ExistsCheck :=
  if normalizeName existing.name = normalizedNew then
    some ⟨"name match", existing.slug⟩
  else
    let existingDomain :=
      match existing.website with
      | some u => extractDomain u
      | none => none
    match newDomain, existingDomain with
    | some d1, some d2 =>
      if d1 ≠ "" ∧ d2 ≠ "" ∧ d1 = d2 then some ⟨"domain match", existing.slug⟩
      else none
    | _, _ => none

/-- Embeds `vendorExists(newVendor, existingVendors)`: walk the list in order,
applying the name-then-domain check to each record; `none` models
`{exists: false}`. -/
def vendorExists (newVendor : VendorLike) (existingVendors : List VendorLike) :
    Option ExistsCheck :=
  existingVendors.findSome?
    (vendorMatch (normalizeName newVendor.name)
      (match newVendor.website with
       | some u => extractDomain u
       | none => none))

/-- The decision `runAcquisition` takes for one discovered candidate. -/
inductive DedupDecision where
  | noWebsite
  | dupExisting (check : ExistsCheck)
  | dupInBatch (check : ExistsCheck)
  | accepted
deriving DecidableEq

/-- One iteration of the discovery filter loop of `runAcquisition`:
skip a candidate without a truthy website; otherwise check the full existing
registry first, then the candidates already accepted in this batch. -/
def dedupCandidate (existingVendors newVendors : List VendorLike)
    (vendor : VendorLike) : DedupDecision :=
  if jsTruthyStr vendor.website = none then .noWebsite
  else
    match vendorExists vendor existingVendors with
    | some existsCheck => .dupExisting existsCheck
    | none =>
      match vendorExists vendor newVendors with
      | some existsInNew => .dupInBatch existsInNew
      | none => .accepted

/-- The discovery filter loop of `runAcquisition` over the merged discovered
list, in input order; `newVendors` accumulates the accepted candidates. -/
def runDedup (existingVendors : List VendorLike) :
    List VendorLike → List VendorLike → List (VendorLike × DedupDecision)
  | _, [] => []
  | newVendors, vendor :: rest =>
    let d := dedupCandidate existingVendors newVendors vendor
    (vendor, d) ::
      runDedup existingVendors
        (if d = .accepted then newVendors ++ [vendor] else newVendors) rest

/-- Map each maximal run of characters outside `[a-z0-9]` to a single `-`
(`.replace(/[^a-z0-9]+/g, '-')` on a lowercased string); `inRun` records
whether the previous character was part of such a run. -/
def collapseRunsAux : List Char → Bool → List Char
  | [], _ => []
  | c :: cs, inRun =>
    if isLowerAlnum c then c :: collapseRunsAux cs false
    else if inRun then collapseRunsAux cs true
    else '-' :: collapseRunsAux cs true

def collapseRuns (l : List Char) : List Char :=
  collapseRunsAux l false

/-- Embeds `generateSlug(name)`: lowercase, collapse non-alphanumeric runs to `-`,
then `.replace(/^-|-$/g, '')` removes the dash at position 0 and the dash at
the last position (after collapsing there is at most one of each). -/
def generateSlug (name : String) : String :=
  let collapsed := collapseRuns (jsToLower name).toList
  let s1 := match collapsed with
    | '-' :: r => r
    | l => l
  let s2 := if s1.getLast? = some '-' then s1.dropLast else s1
  String.mk s2

/-- The constant `pricing` block of a generated entry. -/
structure PricingInfo where
  model : String
  starting_price : Option ℚ
  currency : String
  has_free_trial : Bool
  billing_cycle : String
  notes : String
deriving DecidableEq

/-- The `verification` block of a generated entry. -/
structure VerificationStamp where
  status : String
  last_verified : String
  verified_by : String
  source_urls : List (Option String)
  notes : String
deriving DecidableEq

/-- A generated software entry (`generateSoftwareEntry`'s result). -/
structure SoftwareEntry where
  name : String
  slug : String
  website : Option String
  logo : String
  software_type : String
  description : String
  pricing : PricingInfo
  verification : VerificationStamp
  ketamine_features : KetamineFeatures
  general_features : List String
  integrations : List String
  pros : List String
  cons : List String
  ideal_for : String
  last_verified : String
  data_source : String
deriving DecidableEq

/-- The inline all-`false` fallback object of `generateSoftwareEntry`'s
`ketamine_features: classification.inferred_features || {...}`. -/
def defaultKetamineFeatures : KetamineFeatures :=
  { iv_protocols := false
    im_protocols := false
    spravato_workflows := false
    outcome_tracking := false
    patient_rating_scales := false
    ketamine_consent_forms := false
    treatment_series_tracking := false }

/-- Embeds `generateSoftwareEntry(vendor, verificationReport, classification)`.  The
`verificationReport` parameter is accepted but never read by the source.  The
two `new Date().toISOString().split('T')[0]` calls are the run date
`today`. -/
def generateSoftwareEntry (vendor : VendorLike)
    (verificationReport : VerificationReport) (classification : Classification)
    (today : String) : SoftwareEntry :=
  let _ := verificationReport
  let slug := generateSlug vendor.name
  { name := vendor.name
    slug := slug
    website := vendor.website
    logo := "/images/software/" ++ slug ++ "-logo.png"
    software_type := classification.classification
    description :=
      (jsTruthyStr vendor.description).getD (vendor.name ++ " - awaiting verification")
    pricing :=
      { model := "custom"
        starting_price := none
        currency := "USD"
        has_free_trial := false
        billing_cycle := "monthly"
        notes := "Contact for pricing" }
    verification :=
      { status := "needs_review"
        last_verified := today
        verified_by := "agent"
        source_urls := [vendor.website]
        notes := "Auto-discovered. " ++ classification.reason }
    ketamine_features := classification.inferred_features.getD defaultKetamineFeatures
    general_features := []
    integrations := []
    pros := []
    cons := ["Auto-discovered - requires manual verification"]
    ideal_for := "Awaiting verification"
    last_verified := today
    data_source := (jsTruthyStr vendor.source).getD "G2/Capterra discovery" }

/-- The per-candidate body of `runAcquisition`'s processing loop (verify,
classify, generate an entry). -/
def processCandidate (vendor : VendorLike) (world : VerifyWorld) (today : String) :
    SoftwareEntry :=
  let verificationReport := verifyVendor vendor world today
  let classification := classifyVendor verificationReport
  generateSoftwareEntry vendor verificationReport classification today

/-! ## Claim-level predicates and the classifier decision list as specified -/

/-- The change condition of the spec, stated over the last-insertion-wins
per-source view the script's `Map`s implement: a source was added, removed,
or changed its `(score, count)` pair relative to the previous run. -/
def sourceSetChanged (prevSources currSources : List ReviewSource) : Prop :=
  ∃ s : Source,
    (lastBySource prevSources s = none ∧ lastBySource currSources s ≠ none) ∨
    (lastBySource prevSources s ≠ none ∧ lastBySource currSources s = none) ∨
    (∃ a b, lastBySource prevSources s = some a ∧ lastBySource currSources s = some b ∧
      (a.score ≠ b.score ∨ a.count ≠ b.count))

/-- Name-identity of the Deduplicator claim: the normalized names coincide. -/
def nameMatches (cand v : VendorLike) : Prop :=
  normalizeName v.name = normalizeName cand.name

/-- Domain-identity of the Deduplicator claim: both sides extract the same
truthy domain. -/
def domainMatches (cand v : VendorLike) : Prop :=
  ∃ d, (cand.website.bind extractDomain) = some d ∧ d ≠ "" ∧
    (v.website.bind extractDomain) = some d

/-- The ordered decision list of the Classifier claim, written from the
claim's words: website down ⇒ `(unknown, low)`; ketamine count ≥ 5 with a
strong-signal keyword match ⇒ `(ketamine_specific, high)`; ketamine count ≥ 1
or psychiatry count ≥ 3 ⇒ `(ketamine_compatible, medium/low)`; otherwise
`(general_ehr, high)`.  Compared against `classifyVendor` below. -/
def classifierSpec (report : VerificationReport) : String × String :=
  if report.website_live = false then ("unknown", "low")
  else
    let ketamineCount : Nat := (report.ketamine_evidence.map (·.count)).getD 0
    let psychiatryCount : Nat := (report.psychiatry_evidence.map (·.count)).getD 0
    let strongSignal : Bool := ((report.ketamine_evidence.map (·.«matches»)).getD []).any
      fun m => m.keyword == "ketamine" || m.keyword == "spravato" || m.keyword == "esketamine"
    if 5 ≤ ketamineCount ∧ strongSignal = true then ("ketamine_specific", "high")
    else if 1 ≤ ketamineCount ∨ 3 ≤ psychiatryCount then
      ("ketamine_compatible", if 0 < ketamineCount then "medium" else "low")
    else ("general_ehr", "high")

/-! ## Concrete fixtures used by witnesses and counterexamples -/

/-- A one-vendor mapping registry with both platform mappings. -/
def mEx : Mappings :=
  ⟨[("acme", { g2 := some { slug := some "acme", url := some "https://gu" },
               capterra := some { slug := some "acme", url := some "https://cu" } })]⟩

/-- A G2 raw item resolving to `acme`: score 4.0, 10 reviews. -/
def g2ItemEx : RawItem :=
  { productUrl := some "https://www.g2.com/products/acme/reviews", url := none,
    rating := some 4, overallRating := none, reviewCount := some 10, totalReviews := none }

/-- A Capterra raw item resolving to `acme`: score 4.5, 20 reviews. -/
def capItemEx : RawItem :=
  { productUrl := none, url := some "https://www.capterra.com/p/123/acme/",
    rating := none, overallRating := some (9/2), reviewCount := some 20, totalReviews := none }

/-- A second G2 item for the same product with different values (a same-run
duplicate for the `(acme, g2)` pair). -/
def g2ItemDupEx : RawItem :=
  { g2ItemEx with rating := some 3, reviewCount := some 5 }

/-- A G2 item with a finite negative score. -/
def g2ItemNegEx : RawItem :=
  { g2ItemEx with rating := some (-1), reviewCount := some 5 }

/-- The expected output record of the two-source first run (spec §8's
end-to-end scenario: totalCount 30, aggregate 4.3). -/
def recEx : AggRecord :=
  { aggregateScore := some (43/10)
    totalCount := 30
    sources := [⟨.capterra, 9/2, 20, "https://cu", "2024-02-01"⟩,
                ⟨.g2, 4, 10, "https://gu", "2024-02-01"⟩]
    lastAggregated := "2024-02-01" }

/-- A previous-run record for `acme` with one unchanged-looking G2 source. -/
def prevRecEx : AggRecord :=
  { aggregateScore := some 4
    totalCount := 10
    sources := [⟨.g2, 4, 10, "https://gu", "2023-12-01"⟩]
    lastAggregated := "2023-12-15" }

/-- A previous-run snapshot holding `prevRecEx`. -/
def prevEx : List (String × AggRecord) := [("acme", prevRecEx)]

/-- The output record of re-running `g2ItemEx` against `prevEx`: the source
and the aggregation stamps are carried forward. -/
def recStableEx : AggRecord :=
  { aggregateScore := some 4
    totalCount := 10
    sources := [⟨.g2, 4, 10, "https://gu", "2023-12-01"⟩]
    lastAggregated := "2023-12-15" }

/-- An existing registry vendor for the Deduplicator examples. -/
def acmeVendorEx : VendorLike :=
  ⟨"acme health", some "acme-health", some "https://acme.io", none, none⟩

/-- A candidate that collides with `acmeVendorEx` by normalized name. -/
def candNameEx : VendorLike :=
  ⟨"Acme Health!", none, some "https://other.example", none, none⟩

/-- A candidate that collides with `acmeVendorEx` by domain. -/
def candDomainEx : VendorLike :=
  ⟨"Totally Different", none, some "https://www.acme.io/pricing", none, none⟩

/-- A discovered candidate whose site mentions spravato five times. -/
def spravatoCandEx : VendorLike :=
  ⟨"SpravatoSoft", none, some "https://spravatosoft.example", none, none⟩

/-- A live-site world whose homepage text contains five spravato mentions. -/
def worldEvidenceEx : VerifyWorld :=
  { probe := { ok := true, status := 200, error := none }
    fetch := fun p =>
      if p = "" then some "spravato spravato spravato spravato spravato" else none }

/-- A live-site world with no retrievable page content. -/
def worldEmptyEx : VerifyWorld :=
  { probe := { ok := true, status := 200, error := none }
    fetch := fun _ => none }

/-- A world whose existence probe fails. -/
def worldDeadEx : VerifyWorld :=
  { probe := { ok := false, status := 0, error := some "timeout" }
    fetch := fun _ => none }

/-! ## Structural lemmas about the Aggregator -/

theorem lookup_map_self (l : List (String × VendorMapping)) (f : String → AggRecord)
    (v : String) :
    (l.map fun e => (e.1, f e.1)).lookup v = (l.lookup v).map fun _ => f v := by
  induction l with
  | nil => rfl
  | cons a t ih =>
    simp only [List.map_cons, List.lookup]
    cases h : v == a.1
    · simpa using ih
    · have hv : v = a.1 := eq_of_beq h
      subst hv
      simp

/-- The output of `aggregate` at a vendor key, as the per-vendor pass over the
previous record and the items resolved to that vendor. -/
theorem lookup_aggregate (mappings : Mappings) (previous : List (String × AggRecord))
    (today : String) (g2Raw capterraRaw : List RawItem) (v : String) :
    (aggregate mappings previous today g2Raw capterraRaw).lookup v =
      (mappings.vendors.lookup v).map fun _ =>
        perVendor (previous.lookup v) today (resolvedFor mappings g2Raw capterraRaw v) := by
  exact lookup_map_self mappings.vendors
    (fun s => perVendor (previous.lookup s) today (resolvedFor mappings g2Raw capterraRaw s)) v

/-- Every record of the output is the per-vendor pass for its key. -/
theorem mem_aggregate {mappings : Mappings} {previous : List (String × AggRecord)}
    {today : String} {g2Raw capterraRaw : List RawItem} {v : String} {rec : AggRecord}
    (h : (v, rec) ∈ aggregate mappings previous today g2Raw capterraRaw) :
    rec = perVendor (previous.lookup v) today (resolvedFor mappings g2Raw capterraRaw v) := by
  unfold aggregate at h
  obtain ⟨e, _, heq⟩ := List.mem_map.1 h
  injection heq with h1 h2
  subst h1
  exact h2.symm

theorem resolveG2_count_pos {mappings : Mappings} {item : RawItem} {r : Resolved}
    (h : resolveG2 mappings item = some r) : 0 < r.count := by
  unfold resolveG2 at h
  rcases hs : extractG2Slug (((jsTruthyStr item.productUrl).or (jsTruthyStr item.url)).getD "")
    with _ | g2Slug
  · simp only [hs] at h
    exact Option.noConfusion h
  · simp only [hs] at h
    rcases hm : mapToVendorSlug g2Slug Source.g2 mappings with _ | vendorSlug
    · simp only [hm] at h
      exact Option.noConfusion h
    · simp only [hm] at h
      rcases hsc : jsNullish item.rating item.overallRating with _ | score
      · simp only [hsc] at h
        exact Option.noConfusion h
      · simp only [hsc] at h
        split at h
        · cases h
          assumption
        · exact Option.noConfusion h

theorem resolveCapterra_count_pos {mappings : Mappings} {item : RawItem} {r : Resolved}
    (h : resolveCapterra mappings item = some r) : 0 < r.count := by
  unfold resolveCapterra at h
  rcases hs : extractCapterraSlug (((jsTruthyStr item.url).or (jsTruthyStr item.productUrl)).getD "")
    with _ | capterraSlug
  · simp only [hs] at h
    exact Option.noConfusion h
  · simp only [hs] at h
    rcases hm : mapToVendorSlug capterraSlug Source.capterra mappings with _ | vendorSlug
    · simp only [hm] at h
      exact Option.noConfusion h
    · simp only [hm] at h
      rcases hsc : jsNullish item.overallRating item.rating with _ | score
      · simp only [hsc] at h
        exact Option.noConfusion h
      · simp only [hsc] at h
        split at h
        · cases h
          assumption
        · exact Option.noConfusion h

theorem resolvedFor_count_pos {mappings : Mappings} {g2Raw capterraRaw : List RawItem}
    {v : String} {r : Resolved} (h : r ∈ resolvedFor mappings g2Raw capterraRaw v) :
    0 < r.count := by
  unfold resolvedFor at h
  have h1 := (List.mem_filter.1 h).1
  rcases List.mem_append.1 h1 with h2 | h2 <;>
    obtain ⟨it, _, hres⟩ := List.mem_filterMap.1 h2
  · exact resolveG2_count_pos hres
  · exact resolveCapterra_count_pos hres

theorem makeSource_source (ps : List ReviewSource) (today : String) (r : Resolved) :
    (makeSource ps today r).source = r.src := by
  unfold makeSource
  split
  · simp only []
    split <;> rfl
  · rfl

theorem makeSource_score (ps : List ReviewSource) (today : String) (r : Resolved) :
    (makeSource ps today r).score = round1 r.score := by
  unfold makeSource
  split
  · simp only []
    split <;> rfl
  · rfl

theorem makeSource_count (ps : List ReviewSource) (today : String) (r : Resolved) :
    (makeSource ps today r).count = r.count := by
  unfold makeSource
  split
  · simp only []
    split <;> rfl
  · rfl

theorem makeSource_url (ps : List ReviewSource) (today : String) (r : Resolved) :
    (makeSource ps today r).url = r.url := by
  unfold makeSource
  split
  · simp only []
    split <;> rfl
  · rfl

/-- The stable two-bucket sort is a permutation of its input. -/
theorem sortSources_perm (l : List ReviewSource) : List.Perm (sortSources l) l := by
  unfold sortSources
  have hcongr : l.filter (fun s => !(s.source == Source.capterra)) =
      l.filter (fun s => s.source == Source.g2) := by
    apply List.filter_congr
    intro x _
    cases hx : x.source <;> simp [hx]
  rw [← hcongr]
  exact List.filter_append_perm _ l

theorem mem_sortSources {l : List ReviewSource} {s : ReviewSource} :
    s ∈ sortSources l ↔ s ∈ l := (sortSources_perm l).mem_iff

/-- Every source count in a produced record is positive. -/
theorem perVendor_count_pos {mappings : Mappings} {g2Raw capterraRaw : List RawItem}
    {v : String} {prevRec : Option AggRecord} {today : String} {s : ReviewSource}
    (hs : s ∈ (perVendor prevRec today (resolvedFor mappings g2Raw capterraRaw v)).sources) :
    0 < s.count := by
  unfold perVendor at hs
  simp only at hs
  obtain ⟨r, hr, hmk⟩ := List.mem_map.1 (mem_sortSources.1 hs)
  rw [← hmk, makeSource_count]
  exact resolvedFor_count_pos hr

/-- The aggregate of a source list depends only on its multiset of sources. -/
theorem calculateAggregate_perm {l1 l2 : List ReviewSource} (h : List.Perm l1 l2) :
    calculateAggregate l1 = calculateAggregate l2 := by
  unfold calculateAggregate
  have hsum1 : (l1.map (·.count)).sum = (l2.map (·.count)).sum := (h.map _).sum_eq
  have hsum2 : (l1.map fun s => s.score * s.count).sum =
      (l2.map fun s => s.score * s.count).sum := (h.map _).sum_eq
  have hlen := h.length_eq
  by_cases h1 : l1 = []
  · have h2 : l2 = [] := List.length_eq_zero.1 (by rw [← hlen, h1]; rfl)
    rw [h1, h2]
  · have h2 : l2 ≠ [] := fun e => h1 (List.length_eq_zero.1 (by rw [hlen, e]; rfl))
    rw [if_neg h1, if_neg h2, hsum1, hsum2]

/-- C1: in every produced vendor record, `totalCount` is the sum of the source
counts; `aggregateScore` is the count-weighted mean rounded to one decimal
when `totalCount > 0` and `null` exactly when `totalCount = 0`; and the
computed aggregate is invariant under permutation of the source list. -/
theorem aggregate_record_invariants
    (mappings : Mappings) (previous : List (String × AggRecord)) (today : String)
    (g2Raw capterraRaw : List RawItem) (v : String) (rec : AggRecord)
    (hmem : (v, rec) ∈ aggregate mappings previous today g2Raw capterraRaw) :
    rec.totalCount = (rec.sources.map (·.count)).sum ∧
    rec.aggregateScore =
      (if rec.totalCount = 0 then none
       else some (round1 ((rec.sources.map fun s => s.score * s.count).sum / rec.totalCount))) ∧
    (rec.aggregateScore = none ↔ rec.totalCount = 0) ∧
    (∀ l : List ReviewSource, List.Perm l rec.sources →
      calculateAggregate l = calculateAggregate rec.sources) := by
  have hrec := mem_aggregate hmem
  subst hrec
  have hpos : ∀ s ∈ (perVendor (previous.lookup v) today
      (resolvedFor mappings g2Raw capterraRaw v)).sources, 0 < s.count :=
    fun _ hs => perVendor_count_pos hs
  have htc : (perVendor (previous.lookup v) today
      (resolvedFor mappings g2Raw capterraRaw v)).totalCount =
      ((perVendor (previous.lookup v) today
        (resolvedFor mappings g2Raw capterraRaw v)).sources.map (·.count)).sum := rfl
  have hag : (perVendor (previous.lookup v) today
      (resolvedFor mappings g2Raw capterraRaw v)).aggregateScore =
      calculateAggregate (perVendor (previous.lookup v) today
        (resolvedFor mappings g2Raw capterraRaw v)).sources := rfl
  set csort := (perVendor (previous.lookup v) today
    (resolvedFor mappings g2Raw capterraRaw v)).sources with hcs
  have hcalc : calculateAggregate csort =
      (if (csort.map (·.count)).sum = 0 then none
       else some (round1 ((csort.map fun s => s.score * s.count).sum /
         (csort.map (·.count)).sum))) := by
    unfold calculateAggregate
    by_cases hnil : csort = []
    · rw [hnil]
      simp
    · have hpos' : 0 < (csort.map (·.count)).sum := by
        apply List.sum_pos
        · intro x hx
          obtain ⟨s, hs, hsx⟩ := List.mem_map.1 hx
          exact hsx ▸ hpos s hs
        · simpa [List.map_eq_nil_iff] using hnil
      rw [if_neg hnil, if_neg (ne_of_gt hpos')]
  refine ⟨htc, ?_, ?_, fun l hl => calculateAggregate_perm hl⟩
  · rw [hag, htc, hcalc]
  · rw [hag, htc, hcalc]
    split
    · simp_all
    · simp_all

/-- Witness for C1 at the two-source scenario of spec §8 (counts 10 and 20,
scores 4.0 and 4.5 ⇒ totalCount 30, aggregate 4.3). -/
theorem aggregate_record_invariants_witness :
    (("acme", recEx) ∈ aggregate mEx [] "2024-02-01" [g2ItemEx] [capItemEx]) ∧
    (recEx.totalCount = (recEx.sources.map (·.count)).sum ∧
     recEx.aggregateScore =
      (if recEx.totalCount = 0 then none
       else some (round1 ((recEx.sources.map fun s => s.score * s.count).sum /
         recEx.totalCount))) ∧
     (recEx.aggregateScore = none ↔ recEx.totalCount = 0) ∧
     (∀ l : List ReviewSource, List.Perm l recEx.sources →
      calculateAggregate l = calculateAggregate recEx.sources)) :=
  ⟨by decide,
   aggregate_record_invariants mEx [] "2024-02-01" [g2ItemEx] [capItemEx] "acme" recEx
     (by decide)⟩

/-- C4: an emitted source's `lastUpdated` equals the previous run's value for
the `(vendor, source)` pair when the emitted `(score, count, url)` triple
matches the previous one, and the run date otherwise.  The previous value is
the one `getPreviousSource` finds: the first source of that name in the
previous record (`previous?.[v]?.sources` being absent is the empty list). -/
theorem source_lastUpdated_carry
    (mappings : Mappings) (previous : List (String × AggRecord)) (today : String)
    (g2Raw capterraRaw : List RawItem) (v : String) (rec : AggRecord)
    (s : ReviewSource) (p : ReviewSource)
    (hmem : (v, rec) ∈ aggregate mappings previous today g2Raw capterraRaw)
    (hs : s ∈ rec.sources)
    (hfind : findSource (((previous.lookup v).map (·.sources)).getD []) s.source = some p) :
    s.lastUpdated =
      if s.score = p.score ∧ s.count = p.count ∧ s.url = p.url then p.lastUpdated
      else today := by
  have hrec := mem_aggregate hmem
  subst hrec
  unfold perVendor at hs
  simp only at hs
  obtain ⟨r, _, hmk⟩ := List.mem_map.1 (mem_sortSources.1 hs)
  subst hmk
  rw [makeSource_source] at hfind
  rw [makeSource_score, makeSource_count, makeSource_url]
  unfold makeSource
  rw [hfind]
  simp only []
  split
  · next hcond =>
    rw [if_pos]
    constructor
    · exact hcond.1.symm
    · exact ⟨hcond.2.1.symm, hcond.2.2.symm⟩
  · next hcond =>
    rw [if_neg]
    intro hc
    exact hcond ⟨hc.1.symm, hc.2.1.symm, hc.2.2.symm⟩

/-- Witness for C4: re-running the unchanged G2 item against `prevEx` carries
the stored `lastUpdated` of 2023-12-01 forward. -/
theorem source_lastUpdated_carry_witness :
    ((("acme", recStableEx) ∈ aggregate mEx prevEx "2024-02-01" [g2ItemEx] []) ∧
     (⟨.g2, 4, 10, "https://gu", "2023-12-01"⟩ : ReviewSource) ∈ recStableEx.sources ∧
     findSource (((prevEx.lookup "acme").map (·.sources)).getD [])
       (⟨.g2, 4, 10, "https://gu", "2023-12-01"⟩ : ReviewSource).source =
       some ⟨.g2, 4, 10, "https://gu", "2023-12-01"⟩) ∧
    (⟨.g2, 4, 10, "https://gu", "2023-12-01"⟩ : ReviewSource).lastUpdated =
      (if (⟨.g2, 4, 10, "https://gu", "2023-12-01"⟩ : ReviewSource).score =
            (⟨.g2, 4, 10, "https://gu", "2023-12-01"⟩ : ReviewSource).score ∧
          (⟨.g2, 4, 10, "https://gu", "2023-12-01"⟩ : ReviewSource).count =
            (⟨.g2, 4, 10, "https://gu", "2023-12-01"⟩ : ReviewSource).count ∧
          (⟨.g2, 4, 10, "https://gu", "2023-12-01"⟩ : ReviewSource).url =
            (⟨.g2, 4, 10, "https://gu", "2023-12-01"⟩ : ReviewSource).url
       then (⟨.g2, 4, 10, "https://gu", "2023-12-01"⟩ : ReviewSource).lastUpdated
       else "2024-02-01") :=
  ⟨⟨by decide, by decide, by decide⟩,
   source_lastUpdated_carry mEx prevEx "2024-02-01" [g2ItemEx] [] "acme" recStableEx
     ⟨.g2, 4, 10, "https://gu", "2023-12-01"⟩ ⟨.g2, 4, 10, "https://gu", "2023-12-01"⟩
     (by decide) (by decide) (by decide)⟩

theorem sourceChanged_iff (p c : Option ReviewSource) :
    sourceChanged p c = true ↔
      (p = none ∧ c ≠ none) ∨ (p ≠ none ∧ c = none) ∨
      (∃ a b, p = some a ∧ c = some b ∧ (a.score ≠ b.score ∨ a.count ≠ b.count)) := by
  cases p <;> cases c <;> simp [sourceChanged]

/-- The boolean change-detection loop decides exactly the spec's
added/removed/changed condition. -/
theorem detectChanged_iff (prevSources currSources : List ReviewSource) :
    detectChanged prevSources currSources = true ↔
      sourceSetChanged prevSources currSources := by
  unfold detectChanged sourceSetChanged
  rw [List.any_eq_true]
  constructor
  · rintro ⟨s, _, hs⟩
    exact ⟨s, (sourceChanged_iff _ _).1 hs⟩
  · rintro ⟨s, hs⟩
    exact ⟨s, by cases s <;> simp, (sourceChanged_iff _ _).2 hs⟩

/-- C3: for a vendor with a previous record, `lastAggregated` advances to the
run date exactly when a source was added, removed, or changed its
`(score, count)` pair, and is otherwise preserved; and a vendor's output
record depends only on that vendor's resolved items and previous record, so
changes elsewhere leave it untouched. -/
theorem lastAggregated_change_frame
    (mappings : Mappings) (previous : List (String × AggRecord)) (today : String)
    (g2Raw capterraRaw : List RawItem) (v : String) (rec p : AggRecord)
    (hrec : (aggregate mappings previous today g2Raw capterraRaw).lookup v = some rec)
    (hprev : previous.lookup v = some p) (hp : p.lastAggregated ≠ "") :
    (rec.lastAggregated =
      if detectChanged p.sources rec.sources then today else p.lastAggregated) ∧
    (detectChanged p.sources rec.sources = true ↔
      sourceSetChanged p.sources rec.sources) ∧
    (∀ (previous' : List (String × AggRecord)) (g2Raw' capterraRaw' : List RawItem)
      (u : String),
      resolvedFor mappings g2Raw' capterraRaw' u =
        resolvedFor mappings g2Raw capterraRaw u →
      previous'.lookup u = previous.lookup u →
      (aggregate mappings previous' today g2Raw' capterraRaw').lookup u =
        (aggregate mappings previous today g2Raw capterraRaw).lookup u) := by
  refine ⟨?_, detectChanged_iff _ _, ?_⟩
  · rw [lookup_aggregate, hprev] at hrec
    rcases hm : mappings.vendors.lookup v with _ | vm
    · rw [hm] at hrec
      exact Option.noConfusion hrec
    · rw [hm] at hrec
      injection hrec with hrec
      subst hrec
      have hshow : (perVendor (some p) today
          (resolvedFor mappings g2Raw capterraRaw v)).lastAggregated =
          if detectChanged p.sources (perVendor (some p) today
            (resolvedFor mappings g2Raw capterraRaw v)).sources then today
          else jsLastAgg (some p) today := rfl
      rw [hshow]
      split
      · rfl
      · unfold jsLastAgg
        simp only []
        rw [if_neg hp]
  · intro previous' g2Raw' capterraRaw' u hres hlook
    rw [lookup_aggregate, lookup_aggregate, hres, hlook]

/-- Witness for C3: the unchanged re-run against `prevEx` preserves
`lastAggregated = "2023-12-15"`. -/
theorem lastAggregated_change_frame_witness :
    ((aggregate mEx prevEx "2024-02-01" [g2ItemEx] []).lookup "acme" = some recStableEx ∧
     prevEx.lookup "acme" = some prevRecEx ∧ prevRecEx.lastAggregated ≠ "") ∧
    ((recStableEx.lastAggregated =
      if detectChanged prevRecEx.sources recStableEx.sources then "2024-02-01"
      else prevRecEx.lastAggregated) ∧
     (detectChanged prevRecEx.sources recStableEx.sources = true ↔
      sourceSetChanged prevRecEx.sources recStableEx.sources) ∧
     (∀ (previous' : List (String × AggRecord)) (g2Raw' capterraRaw' : List RawItem)
       (u : String),
       resolvedFor mEx g2Raw' capterraRaw' u = resolvedFor mEx [g2ItemEx] [] u →
       previous'.lookup u = prevEx.lookup u →
       (aggregate mEx previous' "2024-02-01" g2Raw' capterraRaw').lookup u =
         (aggregate mEx prevEx "2024-02-01" [g2ItemEx] []).lookup u)) :=
  ⟨⟨by decide, by decide, by decide⟩,
   lastAggregated_change_frame mEx prevEx "2024-02-01" [g2ItemEx] [] "acme"
     recStableEx prevRecEx (by decide) (by decide) (by decide)⟩

theorem find?_filter_sub (p q : ReviewSource → Bool) (l : List ReviewSource)
    (himp : ∀ x, p x = true → q x = true) :
    (l.filter q).find? p = l.find? p := by
  induction l with
  | nil => rfl
  | cons a t ih =>
    by_cases hq : q a
    · rw [List.filter_cons_of_pos hq]
      by_cases hpa : p a
      · rw [List.find?_cons_of_pos _ hpa, List.find?_cons_of_pos _ hpa]
      · rw [List.find?_cons_of_neg _ hpa, List.find?_cons_of_neg _ hpa, ih]
    · rw [List.filter_cons_of_neg hq]
      have hpa : ¬ p a = true := fun hpt => hq (himp a hpt)
      rw [List.find?_cons_of_neg _ hpa, ih]

theorem find?_filter_none (p q : ReviewSource → Bool) (l : List ReviewSource)
    (hdisj : ∀ x, q x = true → ¬ p x = true) :
    (l.filter q).find? p = none := by
  apply List.find?_eq_none.2
  intro x hx
  exact hdisj x (List.mem_filter.1 hx).2

theorem findSource_cons (a : ReviewSource) (l : List ReviewSource) (s : Source) :
    findSource (a :: l) s = if a.source == s then some a else findSource l s := by
  unfold findSource
  cases h : a.source == s <;> simp [List.find?_cons, h]

/-- Looking a source name up in the sorted list is the same as in the
unsorted one: the sort only reorders the two name buckets. -/
theorem findSource_sortSources (l : List ReviewSource) (s : Source) :
    findSource (sortSources l) s = findSource l s := by
  unfold findSource sortSources
  rw [List.find?_append]
  cases s with
  | capterra =>
    rw [find?_filter_sub _ _ l (fun x h => h)]
    rw [find?_filter_none (fun s => s.source == Source.capterra)
      (fun s => s.source == Source.g2) l (by intro x hx; simp_all)]
    rcases hf : l.find? (fun s => s.source == Source.capterra) with _ | y <;> rw [hf] <;> rfl
  | g2 =>
    rw [find?_filter_none (fun s => s.source == Source.g2)
      (fun s => s.source == Source.capterra) l (by intro x hx; simp_all), Option.none_or]
    exact find?_filter_sub _ _ l (fun x h => h)

/-- With one resolved item per source name, the freshly built source list
looks up each item's own `makeSource` image. -/
theorem findSource_map_makeSource {raw : List Resolved} (ps : List ReviewSource)
    (today : String) {r : Resolved}
    (hnd : (raw.map (·.src)).Nodup) (hr : r ∈ raw) :
    findSource (raw.map (makeSource ps today)) r.src = some (makeSource ps today r) := by
  induction raw with
  | nil => cases hr
  | cons a t ih =>
    rw [List.map_cons, List.nodup_cons] at hnd
    rcases List.mem_cons.1 hr with rfl | hrt
    · rw [List.map_cons, findSource_cons]
      rw [if_pos (by rw [makeSource_source]; exact beq_self_eq_true r.src)]
    · have hne : ¬ ((makeSource ps today a).source == r.src) = true := by
        rw [makeSource_source]
        simp only [beq_iff_eq]
        intro heq
        exact hnd.1 (heq ▸ List.mem_map_of_mem (·.src) hrt)
      rw [List.map_cons, findSource_cons, if_neg hne]
      exact ih hnd.2 hrt

/-- A second `makeSource` against a source list that already stores this
item's image is the identity: the `(score, count, url)` triple matches, so
`lastUpdated` is carried. -/
theorem makeSource_stable (ps : List ReviewSource) (d1 d2 : String)
    (cur : List ReviewSource) (r : Resolved)
    (hfind : findSource cur r.src = some (makeSource ps d1 r)) :
    makeSource cur d2 r = makeSource ps d1 r := by
  rcases he : makeSource ps d1 r with ⟨es, esc, ec, eu, el⟩
  have h1 : es = r.src := by rw [← makeSource_source ps d1 r, he]
  have h2 : esc = round1 r.score := by rw [← makeSource_score ps d1 r, he]
  have h3 : ec = r.count := by rw [← makeSource_count ps d1 r, he]
  have h4 : eu = r.url := by rw [← makeSource_url ps d1 r, he]
  subst h1 h2 h3 h4
  rw [he] at hfind
  unfold makeSource
  rw [hfind]
  simp

theorem sourceChanged_self (o : Option ReviewSource) : sourceChanged o o = false := by
  cases o <;> simp [sourceChanged]

theorem detectChanged_self (l : List ReviewSource) : detectChanged l l = false := by
  simp [detectChanged, sourceChanged_self]

theorem jsLastAgg_ne_empty (prevRec : Option AggRecord) {d : String} (hd : d ≠ "") :
    jsLastAgg prevRec d ≠ "" := by
  unfold jsLastAgg
  cases prevRec with
  | none => exact hd
  | some p =>
    simp only []
    split
    · exact hd
    · assumption

theorem perVendor_lastAgg_ne_empty (prevRec : Option AggRecord) {d : String}
    (raw : List Resolved) (hd : d ≠ "") :
    (perVendor prevRec d raw).lastAggregated ≠ "" := by
  show (if _ then d else jsLastAgg prevRec d) ≠ ""
  split
  · exact hd
  · exact jsLastAgg_ne_empty prevRec hd

/-- The per-vendor pass is a fixed point of itself: feeding a vendor's own
output back as the previous record, with the same resolved items and any
later run date, reproduces the record — provided the items carry at most one
entry per source name. -/
theorem perVendor_stable (prevRec : Option AggRecord) (d1 d2 : String)
    (raw : List Resolved) (hnd : (raw.map (·.src)).Nodup) (hd1 : d1 ≠ "") :
    perVendor (some (perVendor prevRec d1 raw)) d2 raw = perVendor prevRec d1 raw := by
  have hmapeq : raw.map (makeSource (perVendor prevRec d1 raw).sources d2) =
      raw.map (makeSource ((prevRec.map (·.sources)).getD []) d1) := by
    apply List.map_congr_left
    intro r hr
    apply makeSource_stable
    show findSource (sortSources (raw.map _)) r.src = _
    rw [findSource_sortSources]
    exact findSource_map_makeSource _ d1 hnd hr
  have hsrc2 : (perVendor (some (perVendor prevRec d1 raw)) d2 raw).sources =
      (perVendor prevRec d1 raw).sources := by
    show sortSources (raw.map (makeSource (perVendor prevRec d1 raw).sources d2)) =
      sortSources (raw.map (makeSource ((prevRec.map (·.sources)).getD []) d1))
    rw [hmapeq]
  have hla2 : (perVendor (some (perVendor prevRec d1 raw)) d2 raw).lastAggregated =
      (perVendor prevRec d1 raw).lastAggregated := by
    show (if detectChanged (perVendor prevRec d1 raw).sources
        (sortSources (raw.map (makeSource (perVendor prevRec d1 raw).sources d2)))
        then d2 else jsLastAgg (some (perVendor prevRec d1 raw)) d2) = _
    rw [hmapeq]
    show (if detectChanged (perVendor prevRec d1 raw).sources
        (perVendor prevRec d1 raw).sources then d2
        else jsLastAgg (some (perVendor prevRec d1 raw)) d2) = _
    rw [detectChanged_self]
    simp only [Bool.false_eq_true, if_false]
    unfold jsLastAgg
    simp only []
    rw [if_neg (perVendor_lastAgg_ne_empty prevRec raw hd1)]
  have hag2 : (perVendor (some (perVendor prevRec d1 raw)) d2 raw).aggregateScore =
      (perVendor prevRec d1 raw).aggregateScore := by
    show calculateAggregate (perVendor (some (perVendor prevRec d1 raw)) d2 raw).sources =
      calculateAggregate (perVendor prevRec d1 raw).sources
    rw [hsrc2]
  have htc2 : (perVendor (some (perVendor prevRec d1 raw)) d2 raw).totalCount =
      (perVendor prevRec d1 raw).totalCount := by
    show ((perVendor (some (perVendor prevRec d1 raw)) d2 raw).sources.map (·.count)).sum =
      ((perVendor prevRec d1 raw).sources.map (·.count)).sum
    rw [hsrc2]
  rcases h2 : perVendor (some (perVendor prevRec d1 raw)) d2 raw with ⟨a2, t2, s2, l2⟩
  rcases h1 : perVendor prevRec d1 raw with ⟨a1, t1, s1, l1⟩
  rw [h2, h1] at hsrc2 hla2 hag2 htc2
  simp_all

theorem lookup_isSome_of_mem {l : List (String × VendorMapping)}
    {e : String × VendorMapping} (h : e ∈ l) : (l.lookup e.1).isSome := by
  induction l with
  | nil => cases h
  | cons a t ih =>
    rcases List.mem_cons.1 h with rfl | ht
    · simp [List.lookup]
    · simp only [List.lookup]
      cases hb : e.1 == a.1
      · exact ih ht
      · rfl

/-- Per-pair uniqueness of the resolved stream restricts to per-source
uniqueness inside each vendor's slice. -/
theorem resolvedFor_src_nodup {mappings : Mappings} {g2Raw capterraRaw : List RawItem}
    (hnd : (((g2Raw.filterMap (resolveG2 mappings) ++
      capterraRaw.filterMap (resolveCapterra mappings)).map
        fun r => (r.vendor, r.src)).Nodup)) (v : String) :
    ((resolvedFor mappings g2Raw capterraRaw v).map (·.src)).Nodup := by
  unfold resolvedFor
  set L := g2Raw.filterMap (resolveG2 mappings) ++
    capterraRaw.filterMap (resolveCapterra mappings) with hL
  have hsub : (L.filter (fun r => r.vendor == v)).Sublist L := List.filter_sublist L
  have hnd2 : ((L.filter (fun r => r.vendor == v)).map
      fun r => (r.vendor, r.src)).Nodup := (hsub.map _).nodup hnd
  have hmm : (L.filter (fun r => r.vendor == v)).map (·.src) =
      ((L.filter (fun r => r.vendor == v)).map fun r => (r.vendor, r.src)).map Prod.snd := by
    rw [List.map_map]
    rfl
  rw [hmm]
  apply List.Nodup.map_on ?_ hnd2
  intro x hx y hy hxy
  obtain ⟨rx, hrx, hrxe⟩ := List.mem_map.1 hx
  obtain ⟨ry, hry, hrye⟩ := List.mem_map.1 hy
  have hvx : rx.vendor = v := by simpa using (List.mem_filter.1 hrx).2
  have hvy : ry.vendor = v := by simpa using (List.mem_filter.1 hry).2
  rw [← hrxe, ← hrye]
  rw [← hrxe, ← hrye] at hxy
  simp only [Prod.mk.injEq]
  exact ⟨hvx.trans hvy.symm, hxy⟩

/-- C2, amended: with at most one raw item per `(vendor, source)` pair,
re-running the Aggregator on the same raw inputs against its own previous
output reproduces that output exactly, whatever the second run's date.
(The original claim fails when two raw items resolve to the same pair; see
the counterexample.) -/
theorem aggregate_idempotent
    (mappings : Mappings) (previous : List (String × AggRecord))
    (today1 today2 : String) (g2Raw capterraRaw : List RawItem)
    (hnd : (((g2Raw.filterMap (resolveG2 mappings) ++
      capterraRaw.filterMap (resolveCapterra mappings)).map
        fun r => (r.vendor, r.src)).Nodup))
    (hd1 : today1 ≠ "") :
    aggregate mappings (aggregate mappings previous today1 g2Raw capterraRaw) today2
      g2Raw capterraRaw =
      aggregate mappings previous today1 g2Raw capterraRaw := by
  conv_lhs => rw [aggregate]
  conv_rhs => rw [aggregate]
  apply List.map_congr_left
  intro e he
  have hlook : (aggregate mappings previous today1 g2Raw capterraRaw).lookup e.1 =
      some (perVendor (previous.lookup e.1) today1
        (resolvedFor mappings g2Raw capterraRaw e.1)) := by
    rw [lookup_aggregate]
    obtain ⟨vm, hvm⟩ := Option.isSome_iff_exists.1 (lookup_isSome_of_mem he)
    rw [hvm]
    rfl
  rw [hlook]
  rw [perVendor_stable _ today1 today2 _ (resolvedFor_src_nodup hnd e.1) hd1]

/-- Witness for C2 (amended) at the duplicate-free two-source run. -/
theorem aggregate_idempotent_witness :
    ((((([g2ItemEx].filterMap (resolveG2 mEx) ++
        [capItemEx].filterMap (resolveCapterra mEx)).map
          fun r => (r.vendor, r.src)).Nodup)) ∧ ("2024-02-01" : String) ≠ "") ∧
    aggregate mEx (aggregate mEx [] "2024-02-01" [g2ItemEx] [capItemEx]) "2024-03-05"
      [g2ItemEx] [capItemEx] =
      aggregate mEx [] "2024-02-01" [g2ItemEx] [capItemEx] :=
  ⟨⟨by decide, by decide⟩,
   aggregate_idempotent mEx [] "2024-02-01" "2024-03-05" [g2ItemEx] [capItemEx]
     (by decide) (by decide)⟩

/-- Counterexample to C2 as stated: two raw G2 items for the same
`(vendor, source)` pair make the second run differ from the first — the
duplicate's `lastUpdated` is re-stamped with the second run's date, because
`getPreviousSource` finds only the first stored entry. -/
theorem aggregate_idempotent_cex :
    aggregate mEx (aggregate mEx [] "2024-01-01" [g2ItemEx, g2ItemDupEx] []) "2024-01-02"
      [g2ItemEx, g2ItemDupEx] [] ≠
      aggregate mEx [] "2024-01-01" [g2ItemEx, g2ItemDupEx] [] := by
  decide

theorem filter_sortSources (l : List ReviewSource) (s : Source) :
    (sortSources l).filter (fun x => x.source == s) =
      l.filter (fun x => x.source == s) := by
  unfold sortSources
  rw [List.filter_append]
  have hnil : ∀ s' : Source, s' ≠ s →
      (l.filter (fun x => x.source == s')).filter (fun x => x.source == s) = [] := by
    intro s' hne
    rw [List.filter_eq_nil_iff]
    intro a ha
    have := (List.mem_filter.1 ha).2
    simp only [beq_iff_eq] at this ⊢
    rw [this]
    exact fun h => hne h
  have hsame : (l.filter (fun x => x.source == s)).filter (fun x => x.source == s) =
      l.filter (fun x => x.source == s) := by
    rw [List.filter_filter]
    apply List.filter_congr
    intro a _
    cases h : a.source == s <;> simp [h]
  cases s with
  | capterra =>
    rw [hsame, hnil Source.g2 (by simp), List.append_nil]
  | g2 =>
    rw [hsame, hnil Source.capterra (by simp), List.nil_append]

/-- C8, amended: the output carries one `ReviewSource` per resolved raw item
of the vendor — per `(vendor, source)` pair, as many entries as raw items
resolved to it.  Same-run duplicates are therefore not collapsed (the
original last-write-wins claim fails; see the counterexample — only the
change-detection `Map` applies last-write-wins). -/
theorem sources_one_per_item
    (mappings : Mappings) (previous : List (String × AggRecord)) (today : String)
    (g2Raw capterraRaw : List RawItem) (v : String) (rec : AggRecord) (s : Source)
    (hmem : (v, rec) ∈ aggregate mappings previous today g2Raw capterraRaw) :
    (rec.sources.filter (fun x => x.source == s)).length =
      ((resolvedFor mappings g2Raw capterraRaw v).filter (fun r => r.src == s)).length := by
  have hrec := mem_aggregate hmem
  subst hrec
  show ((sortSources ((resolvedFor mappings g2Raw capterraRaw v).map
    (makeSource (((previous.lookup v).map (·.sources)).getD []) today))).filter
      (fun x => x.source == s)).length = _
  rw [filter_sortSources, List.filter_map, List.length_map]
  congr 1
  apply List.filter_congr
  intro r _
  show ((makeSource (((previous.lookup v).map (·.sources)).getD []) today r).source == s) =
    (r.src == s)
  rw [makeSource_source]

/-- Witness for C8 (amended) at the duplicate-free two-source run. -/
theorem sources_one_per_item_witness :
    (("acme", recEx) ∈ aggregate mEx [] "2024-02-01" [g2ItemEx] [capItemEx]) ∧
    (recEx.sources.filter (fun x => x.source == Source.g2)).length =
      ((resolvedFor mEx [g2ItemEx] [capItemEx] "acme").filter
        (fun r => r.src == Source.g2)).length :=
  ⟨by decide,
   sources_one_per_item mEx [] "2024-02-01" [g2ItemEx] [capItemEx] "acme" recEx Source.g2
     (by decide)⟩

/-- Counterexample to C8 as stated: two raw items resolving to
`(acme, g2)` yield two `ReviewSource` entries in the output, not one. -/
theorem sources_one_per_item_cex :
    ((([g2ItemEx, g2ItemDupEx].filterMap (resolveG2 mEx)).map fun r => (r.vendor, r.src)) =
      [("acme", Source.g2), ("acme", Source.g2)]) ∧
    (((aggregate mEx [] "2024-01-01" [g2ItemEx, g2ItemDupEx] []).lookup "acme").map
      fun r => (r.sources.filter (fun x => x.source == Source.g2)).length) = some 2 := by
  decide

/-- C7 evaluated at the failing input: a raw G2 item whose score is the
finite negative number `-1` is not dropped — it produces a `ReviewSource`
with score `-1` (which the repository's own validation gate,
`scripts/validation/validate-reviews.mjs`, rejects as fatal). -/
theorem negative_score_kept :
    g2ItemNegEx.rating = some (-1) ∧
    (((aggregate mEx [] "2024-01-01" [g2ItemNegEx] []).lookup "acme").map
      fun r => r.sources.map fun s => (s.source, s.score, s.count)) =
      some [(Source.g2, -1, 5)] := by
  decide

/-- C5: the classifier's category and confidence are decided by the first
matching rule of the ordered list in `classifierSpec`: dead site ⇒
`(unknown, low)`; ketamine count ≥ 5 with a strong-signal keyword ⇒
`(ketamine_specific, high)`; ketamine count ≥ 1 or psychiatry count ≥ 3 ⇒
`(ketamine_compatible, medium if ketamine count > 0 else low)`; otherwise
`(general_ehr, high)`. -/
theorem classifyVendor_matches_spec (report : VerificationReport) :
    ((classifyVendor report).classification, (classifyVendor report).confidence) =
      classifierSpec report := by
  unfold classifyVendor classifierSpec
  cases hlive : report.website_live
  · simp [hlive]
  · simp only [hlive, Bool.true_eq_false, if_false, Bool.not_true]
    split_ifs <;> simp_all

theorem websiteDomain_eq (v : VendorLike) :
    (match v.website with
     | some u => extractDomain u
     | none => none) = v.website.bind extractDomain := by
  cases v.website <;> rfl

theorem vendorMatch_isSome_iff (cand v : VendorLike) :
    (vendorMatch (normalizeName cand.name) (cand.website.bind extractDomain) v).isSome ↔
      nameMatches cand v ∨ domainMatches cand v := by
  unfold vendorMatch nameMatches domainMatches
  split_ifs with hname
  · simp [hname]
  · simp only [hname, false_or]
    rw [websiteDomain_eq]
    rcases hd1 : cand.website.bind extractDomain with _ | d1
    · simp [hd1]
    · rcases hd2 : v.website.bind extractDomain with _ | d2
      · simp
      · simp only []
        split_ifs with hcond
        · simp only [Option.isSome_some, true_iff]
          exact ⟨d1, rfl, hcond.1, by rw [hcond.2.2]⟩
        · simp only [Option.isSome_none, Bool.false_eq_true, false_iff]
          rintro ⟨d, hd, hne, hv⟩
          injection hd with hd
          injection hv with hv
          exact hcond ⟨hd ▸ hne, hv ▸ hne, hd.trans hv.symm⟩

theorem vendorMatch_record {cand v : VendorLike} {ck : ExistsCheck}
    (h : vendorMatch (normalizeName cand.name) (cand.website.bind extractDomain) v =
      some ck) :
    ck.existing = v.slug ∧
      ((ck.reason = "name match" ∧ nameMatches cand v) ∨
       (ck.reason = "domain match" ∧ domainMatches cand v)) := by
  unfold vendorMatch at h
  split_ifs at h with hname
  · injection h with h
    subst h
    exact ⟨rfl, Or.inl ⟨rfl, hname⟩⟩
  · rw [websiteDomain_eq] at h
    rcases hd1 : cand.website.bind extractDomain with _ | d1 <;> rw [hd1] at h
    · exact Option.noConfusion h
    · rcases hd2 : v.website.bind extractDomain with _ | d2 <;> rw [hd2] at h
      · exact Option.noConfusion h
      · simp only [] at h
        split_ifs at h with hcond
        · injection h with h
          subst h
          refine ⟨rfl, Or.inr ⟨rfl, d1, hd1, hcond.1, ?_⟩⟩
          rw [hcond.2.2]
          exact hd2

theorem vendorExists_isSome_iff (cand : VendorLike) (l : List VendorLike) :
    (vendorExists cand l).isSome ↔ ∃ v ∈ l, nameMatches cand v ∨ domainMatches cand v := by
  unfold vendorExists
  rw [websiteDomain_eq]
  induction l with
  | nil => simp [List.findSome?]
  | cons a t ih =>
    rw [List.findSome?_cons]
    rcases ha : vendorMatch (normalizeName cand.name) (cand.website.bind extractDomain) a
      with _ | ck
    · simp only []
      rw [ih]
      constructor
      · rintro ⟨v, hv, hm⟩
        exact ⟨v, List.mem_cons_of_mem a hv, hm⟩
      · rintro ⟨v, hv, hm⟩
        rcases List.mem_cons.1 hv with rfl | hvt
        · exact absurd ((vendorMatch_isSome_iff cand v).2 hm) (by rw [ha]; simp)
        · exact ⟨v, hvt, hm⟩
    · simp only [Option.isSome_some, true_iff]
      exact ⟨a, List.mem_cons_self a t,
        (vendorMatch_isSome_iff cand a).1 (by rw [ha]; rfl)⟩

theorem vendorExists_record {cand : VendorLike} {l : List VendorLike} {ck : ExistsCheck}
    (h : vendorExists cand l = some ck) :
    ∃ v ∈ l, ck.existing = v.slug ∧
      ((ck.reason = "name match" ∧ nameMatches cand v) ∨
       (ck.reason = "domain match" ∧ domainMatches cand v)) := by
  unfold vendorExists at h
  rw [websiteDomain_eq] at h
  induction l with
  | nil => exact Option.noConfusion h
  | cons a t ih =>
    rw [List.findSome?_cons] at h
    rcases ha : vendorMatch (normalizeName cand.name) (cand.website.bind extractDomain) a
      with _ | ck' <;> rw [ha] at h
    · obtain ⟨v, hv, hrec⟩ := ih h
      exact ⟨v, List.mem_cons_of_mem a hv, hrec⟩
    · injection h with h
      subst h
      exact ⟨a, List.mem_cons_self a t, vendorMatch_record ha⟩

/-- C6: a candidate with a truthy website is rejected as a duplicate exactly
when some vendor of the existing registry or of the already-accepted batch
matches it by normalized name or by normalized domain; the registry is
checked first and decides the recorded check; an in-batch check fires only
when the registry has no match; every rejection records a reason
(`name match` or `domain match`) and the matched record's slug; and the
filter loop processes candidates in input order, appending accepted ones to
the batch list. -/
theorem dedup_characterisation
    (existingVendors newVendors : List VendorLike) (vendor : VendorLike)
    (hweb : jsTruthyStr vendor.website ≠ none) :
    ((∃ ck, dedupCandidate existingVendors newVendors vendor =
          DedupDecision.dupExisting ck ∨
        dedupCandidate existingVendors newVendors vendor = DedupDecision.dupInBatch ck) ↔
      ∃ v, (v ∈ existingVendors ∨ v ∈ newVendors) ∧
        (nameMatches vendor v ∨ domainMatches vendor v)) ∧
    (∀ ck, vendorExists vendor existingVendors = some ck →
      dedupCandidate existingVendors newVendors vendor =
        DedupDecision.dupExisting ck) ∧
    (vendorExists vendor existingVendors = none →
      ∀ ck, vendorExists vendor newVendors = some ck →
        dedupCandidate existingVendors newVendors vendor =
          DedupDecision.dupInBatch ck) ∧
    (∀ ck, (dedupCandidate existingVendors newVendors vendor =
          DedupDecision.dupExisting ck ∨
        dedupCandidate existingVendors newVendors vendor =
          DedupDecision.dupInBatch ck) →
      ∃ v, (v ∈ existingVendors ∨ v ∈ newVendors) ∧ ck.existing = v.slug ∧
        ((ck.reason = "name match" ∧ nameMatches vendor v) ∨
         (ck.reason = "domain match" ∧ domainMatches vendor v))) ∧
    (∀ rest, runDedup existingVendors newVendors (vendor :: rest) =
      (vendor, dedupCandidate existingVendors newVendors vendor) ::
        runDedup existingVendors
          (if dedupCandidate existingVendors newVendors vendor = DedupDecision.accepted
           then newVendors ++ [vendor] else newVendors) rest) := by
  have hstep : dedupCandidate existingVendors newVendors vendor =
      (match vendorExists vendor existingVendors with
       | some existsCheck => DedupDecision.dupExisting existsCheck
       | none =>
         match vendorExists vendor newVendors with
         | some existsInNew => DedupDecision.dupInBatch existsInNew
         | none => DedupDecision.accepted) := by
    unfold dedupCandidate
    rw [if_neg hweb]
  refine ⟨?_, ?_, ?_, ?_, fun rest => rfl⟩
  · constructor
    · rintro ⟨ck, hck | hck⟩ <;> rw [hstep] at hck
      · rcases he : vendorExists vendor existingVendors with _ | ck' <;> rw [he] at hck
        · rcases hn : vendorExists vendor newVendors with _ | ck'' <;>
            rw [hn] at hck <;> cases hck
        · cases hck
          obtain ⟨v, hv, hm⟩ := (vendorExists_isSome_iff vendor existingVendors).1
            (by rw [he]; rfl)
          exact ⟨v, Or.inl hv, hm⟩
      · rcases he : vendorExists vendor existingVendors with _ | ck' <;> rw [he] at hck
        · rcases hn : vendorExists vendor newVendors with _ | ck'' <;> rw [hn] at hck
          · cases hck
          · cases hck
            obtain ⟨v, hv, hm⟩ := (vendorExists_isSome_iff vendor newVendors).1
              (by rw [hn]; rfl)
            exact ⟨v, Or.inr hv, hm⟩
        · cases hck
    · rintro ⟨v, hv | hv, hm⟩
      · obtain ⟨ck, hck⟩ := Option.isSome_iff_exists.1
          ((vendorExists_isSome_iff vendor existingVendors).2 ⟨v, hv, hm⟩)
        exact ⟨ck, Or.inl (by rw [hstep, hck])⟩
      · rcases he : vendorExists vendor existingVendors with _ | ck'
        · obtain ⟨ck, hck⟩ := Option.isSome_iff_exists.1
            ((vendorExists_isSome_iff vendor newVendors).2 ⟨v, hv, hm⟩)
          exact ⟨ck, Or.inr (by rw [hstep, he, hck])⟩
        · exact ⟨ck', Or.inl (by rw [hstep, he])⟩
  · intro ck hck
    rw [hstep, hck]
  · intro hnone ck hck
    rw [hstep, hnone, hck]
  · intro ck hck
    rcases hck with hck | hck <;> rw [hstep] at hck
    · rcases he : vendorExists vendor existingVendors with _ | ck' <;> rw [he] at hck
      · rcases hn : vendorExists vendor newVendors with _ | ck'' <;>
          rw [hn] at hck <;> cases hck
      · cases hck
        obtain ⟨v, hv, hrec⟩ := vendorExists_record he
        exact ⟨v, Or.inl hv, hrec⟩
    · rcases he : vendorExists vendor existingVendors with _ | ck' <;> rw [he] at hck
      · rcases hn : vendorExists vendor newVendors with _ | ck'' <;> rw [hn] at hck
        · cases hck
        · cases hck
          obtain ⟨v, hv, hrec⟩ := vendorExists_record hn
          exact ⟨v, Or.inr hv, hrec⟩
      · cases hck

/-- Witness for C6: the candidate "Acme Health!" is rejected against the
registry vendor named "acme health" with reason `name match` and the matched
slug recorded. -/
theorem dedup_characterisation_witness :
    jsTruthyStr candNameEx.website ≠ none ∧
    dedupCandidate [acmeVendorEx] [] candNameEx =
      DedupDecision.dupExisting ⟨"name match", some "acme-health"⟩ :=
  ⟨by decide,
   (dedup_characterisation [acmeVendorEx] [] candNameEx (by decide)).2.1
     ⟨"name match", some "acme-health"⟩ (by decide)⟩

/-- C9 evaluated at the failing input: for a live site whose report infers
`spravato_workflows = true`, the generated entry still carries the all-false
default flags — `classifyVendor`'s result has no `inferred_features`, so
`generateSoftwareEntry`'s fallback always fires and `inferKetamineFeatures`
never reaches a generated candidate entry. -/
theorem inferred_features_not_attached :
    (verifyVendor spravatoCandEx worldEvidenceEx "2024-05-01").website_live = true ∧
    (inferKetamineFeatures
      (verifyVendor spravatoCandEx worldEvidenceEx "2024-05-01")).spravato_workflows =
      true ∧
    (classifyVendor
      (verifyVendor spravatoCandEx worldEvidenceEx "2024-05-01")).inferred_features =
      none ∧
    (processCandidate spravatoCandEx worldEvidenceEx "2024-05-01").ketamine_features =
      defaultKetamineFeatures ∧
    (processCandidate spravatoCandEx worldEvidenceEx
      "2024-05-01").ketamine_features.spravato_workflows = false := by
  decide

/-- Counterexample to C10 as stated: the Evidence Collector itself decides
between `verified` and `needs_review` for reachable sites — two live worlds
differing only in fetched evidence receive different statuses from
`verifyVendor`, with no Classifier involved. -/
theorem collector_assigns_status_cex :
    (verifyVendor spravatoCandEx worldEvidenceEx "2024-05-01").website_live = true ∧
    (verifyVendor spravatoCandEx worldEmptyEx "2024-05-01").website_live = true ∧
    (verifyVendor spravatoCandEx worldEvidenceEx "2024-05-01").status = "verified" ∧
    (verifyVendor spravatoCandEx worldEmptyEx "2024-05-01").status = "needs_review" := by
  decide

/-- C10, amended: `verifyVendor` reports `unverified` exactly when the
existence probe fails; for a reachable site the Evidence Collector itself
assigns `verified` (ketamine count ≥ 5 or psychiatry count ≥ 3) or
`needs_review` from its own keyword evidence. -/
theorem verify_status_semantics (vendor : VendorLike) (world : VerifyWorld)
    (today : String) :
    ((verifyVendor vendor world today).status = "unverified" ↔
      world.probe.ok = false) ∧
    ((verifyVendor vendor world today).website_live = world.probe.ok) ∧
    (world.probe.ok = true →
      ∃ ke pe, (verifyVendor vendor world today).ketamine_evidence = some ke ∧
        (verifyVendor vendor world today).psychiatry_evidence = some pe ∧
        (verifyVendor vendor world today).status =
          (if 5 ≤ ke.count then "verified"
           else if 3 ≤ pe.count then "verified" else "needs_review")) := by
  unfold verifyVendor
  cases hok : world.probe.ok
  · simp [hok]
  · simp only [hok, Bool.true_eq_false, not_true, if_false, Bool.not_true]
    refine ⟨?_, ?_, ?_⟩
    · simp only [iff_false]
      split_ifs <;> simp
    · trivial
    · intro _
      refine ⟨_, _, rfl, rfl, rfl⟩

/-- Witness for C10 (amended): a failing probe yields `unverified`. -/
theorem verify_status_semantics_witness :
    (verifyVendor spravatoCandEx worldDeadEx "2024-05-01").status = "unverified" :=
  (verify_status_semantics spravatoCandEx worldDeadEx "2024-05-01").1.mpr (by decide)
